import Mathlib

/-!
Verification development for the MPoL core: grid coordinates, image cubes,
packing utilities, the visibility gridding engine, and the cross-validation
splitter. The Python library modules (mpol.coordinates, mpol.images,
mpol.gridding, mpol.utils, mpol.crossval) are not part of the source tree
available here (only their tests and packaging are), so each component is
modelled from the specification, constrained by the behaviour the test suite
pins down (error messages, defaults, attribute access). Real-valued tensor
entries are modelled as exact rationals (for the data path) or real numbers
(for the differentiable image path).
-/

namespace MPoL

/-! ## mpol.coordinates : GridCoords -/

/-- Modelled from the spec: GridCoords is a pure value object holding the
image cell size (arcsec, must be positive) and the pixel count (must be
even); everything else in the chain shares a reference to it. -/
structure GridCoords where
  cell_size : ℚ
  npix : ℕ
deriving DecidableEq

/-- Modelled from the spec: validating constructor for GridCoords. It fails
with a ValueError (modelled as Except.error carrying the message the test
suite matches against) when npix is odd, or when cell_size is not a positive
real number. -/
def GridCoords.build (cell_size : ℚ) (npix : ℕ) : Except String GridCoords :=
  if npix % 2 = 1 then
    Except.error "Image must have an even number of pixels."
  else if cell_size ≤ 0 then
    Except.error "cell_size must be a positive real number."
  else
    Except.ok { cell_size := cell_size, npix := npix }

/-- Modelled from the spec: the Fourier-plane cell size, du = 1/(npix·cell_size)
in consistent units. -/
def GridCoords.du (g : GridCoords) : ℚ :=
  1 / (g.npix * g.cell_size)

/-! ## mpol.utils : packing utilities

A cube is an (nchan, npix, npix) tensor, modelled as a curried function on
`Fin` indices; the element type is arbitrary because the packing conversions
are pure index permutations. -/

def Cube (nchan npix : ℕ) (α : Type) : Type :=
  Fin nchan → Fin npix → Fin npix → α

/-- Index map of fftshift along one axis of length n: position i of the
shifted tensor reads position (i + n/2) mod n of the input. For even n this
also equals the ifftshift index map. -/
def fftshiftIdx (n : ℕ) (i : Fin n) : Fin n :=
  ⟨(i + n / 2) % n, Nat.mod_lt _ i.pos⟩

/-- Index map of reversing one axis of length n (torch.flip): position i of
the flipped tensor reads position n - 1 - i of the input. -/
def flipIdx (n : ℕ) (i : Fin n) : Fin n :=
  ⟨n - 1 - i, by have h := i.isLt; omega⟩

/-- fftshift applied to both spatial axes of a cube. -/
def fftshift_cube {nchan npix : ℕ} {α : Type} (X : Cube nchan npix α) : Cube nchan npix α :=
  fun c i j => X c (fftshiftIdx npix i) (fftshiftIdx npix j)

/-- Reversal of the last (RA) spatial axis of a cube. -/
def flip_last_axis {nchan npix : ℕ} {α : Type} (X : Cube nchan npix α) : Cube nchan npix α :=
  fun c i j => X c i (flipIdx npix j)

/-- Modelled from the spec: sky_cube_to_packed_cube flips the RA axis (to
reconcile the astronomical north-up, RA-left convention with the FFT
convention) and then applies fftshift to both spatial axes so that index 0
corresponds to zero spatial frequency. -/
def sky_cube_to_packed_cube {nchan npix : ℕ} {α : Type} (X : Cube nchan npix α) :
    Cube nchan npix α :=
  fftshift_cube (flip_last_axis X)

/-- Modelled from the spec: packed_cube_to_sky_cube applies the inverse
shift (ifftshift, equal to fftshift for even npix) to both spatial axes and
then flips the RA axis back. -/
def packed_cube_to_sky_cube {nchan npix : ℕ} {α : Type} (X : Cube nchan npix α) :
    Cube nchan npix α :=
  flip_last_axis (fftshift_cube X)

/-! ## mpol.images : BaseCube and ImageCube -/

/-- The softplus nonlinearity log(1 + exp x), the default positivity mapping
of BaseCube (torch.nn.Softplus with beta = 1). -/
noncomputable def softplus (x : ℝ) : ℝ :=
  Real.log (1 + Real.exp x)

/-- Modelled from the spec: BaseCube holds a shared GridCoords reference and
an unconstrained raw parameter tensor of shape (nchan, npix, npix) in packed
layout. -/
structure BaseCube where
  nchan : ℕ
  coords : GridCoords
  base_cube : Fin nchan → Fin coords.npix → Fin coords.npix → ℝ

/-- Modelled from the spec: BaseCube.forward maps the raw parameter tensor
elementwise through the softplus nonlinearity; it is stateless and
recomputed each call. -/
noncomputable def BaseCube.forward (b : BaseCube) :
    Fin b.nchan → Fin b.coords.npix → Fin b.coords.npix → ℝ :=
  fun c i j => softplus (b.base_cube c i j)

/-- Modelled from the spec: BaseCube.from_image_properties builds the
GridCoords (delegating validation to it) and a zero-initialized raw cube;
nchan defaults to 1 when unspecified (modelled as Option.none). -/
def BaseCube.from_image_properties (cell_size : ℚ) (npix : ℕ) (nchan : Option ℕ) :
    Except String BaseCube :=
  (GridCoords.build cell_size npix).map
    (fun g => { nchan := nchan.getD 1, coords := g, base_cube := fun _ _ _ => 0 })

/-- Conversion from arcseconds to radians, mpol.constants.arcsec. -/
noncomputable def arcsec : ℝ :=
  Real.pi / 648000

/-- Modelled from the spec: ImageCube caches the most recent packed cube fed
through forward; the cache starts zero-filled, so attributes derived from it
(sky_cube, flux) are readable before any forward call. -/
structure ImageCube where
  nchan : ℕ
  coords : GridCoords
  passthrough : Bool
  packed_cube : Fin nchan → Fin coords.npix → Fin coords.npix → ℝ

/-- Modelled from the spec and the test suite: the ImageCube constructor, the
cached cube zero-initialized before any forward pass. -/
def ImageCube.init (coords : GridCoords) (nchan : ℕ) (passthrough : Bool) : ImageCube :=
  { nchan := nchan, coords := coords, passthrough := passthrough,
    packed_cube := fun _ _ _ => 0 }

/-- Modelled from the spec: ImageCube.forward takes a packed cube (already
non-negative in passthrough mode, otherwise mapped through the positivity
nonlinearity) and converts it to sky layout. -/
noncomputable def ImageCube.forward (im : ImageCube)
    (cube : Fin im.nchan → Fin im.coords.npix → Fin im.coords.npix → ℝ) :
    Fin im.nchan → Fin im.coords.npix → Fin im.coords.npix → ℝ :=
  packed_cube_to_sky_cube (if im.passthrough then cube else fun c i j => softplus (cube c i j))

/-- The cached sky-layout cube of an ImageCube. -/
noncomputable def ImageCube.sky_cube (im : ImageCube) :
    Fin im.nchan → Fin im.coords.npix → Fin im.coords.npix → ℝ :=
  packed_cube_to_sky_cube im.packed_cube

/-- Modelled from the spec: flux per channel is the sum of pixel values times
the pixel area (cell_size in radians, squared); one entry per channel. -/
noncomputable def ImageCube.flux (im : ImageCube) : List ℝ :=
  (List.finRange im.nchan).map
    (fun c => (∑ i, ∑ j, im.sky_cube c i j) * ((im.coords.cell_size : ℝ) * arcsec) ^ 2)

/-- Modelled from the spec: ImageCube.from_image_properties delegates
validation to GridCoords; nchan defaults to 1 when unspecified. -/
def ImageCube.from_image_properties (cell_size : ℚ) (npix : ℕ) (nchan : Option ℕ) :
    Except String ImageCube :=
  (GridCoords.build cell_size npix).map
    (fun g => ImageCube.init g (nchan.getD 1) false)

/-! ## mpol.gridding : GriddingEngine (DataAverager / DirtyImager)

The engine operates on each channel independently; one channel's parallel
arrays are modelled. -/

/-- One raw visibility sample: (u, v) spatial frequency, inverse-variance
weight and the real and imaginary visibility components. -/
structure VisSample where
  u : ℚ
  v : ℚ
  w : ℚ
  re : ℚ
  im : ℚ
deriving DecidableEq

/-- Modelled from the spec: round to the nearest integer, with samples
landing exactly on a cell boundary assigned by round-half-to-even. -/
def roundHalfEven (q : ℚ) : ℤ :=
  if q - ⌊q⌋ < 1 / 2 then ⌊q⌋
  else if 1 / 2 < q - ⌊q⌋ then ⌊q⌋ + 1
  else if Even ⌊q⌋ then ⌊q⌋ else ⌊q⌋ + 1

/-- Modelled from the spec: nearest-cell binning — each sample is assigned to
the grid cell whose (u, v) center is nearest, at spacing du = dv. -/
def cellOf (g : GridCoords) (s : VisSample) : ℤ × ℤ :=
  (roundHalfEven (s.u / g.du), roundHalfEven (s.v / g.du))

/-- Modelled from the spec: the scatter/accumulate pass of the gridding
engine. A single sweep over the raw samples accumulates, for every grid
cell, (Σ w·re, Σ w·im, Σ w, sample count) — the sparse scatter-matrix
product of the implementation. -/
def gridAccum (g : GridCoords) : List VisSample → (ℤ × ℤ) → ℚ × ℚ × ℚ × ℕ
  | [] => fun _ => (0, 0, 0, 0)
  | s :: rest => fun cell =>
      if cellOf g s = cell then
        ((gridAccum g rest cell).1 + s.w * s.re,
          (gridAccum g rest cell).2.1 + s.w * s.im,
          (gridAccum g rest cell).2.2.1 + s.w,
          (gridAccum g rest cell).2.2.2 + 1)
      else gridAccum g rest cell

/-- The gridding engine (DataAverager / DirtyImager share this core). -/
structure DataAverager where
  coords : GridCoords
  samples : List VisSample

/-- Zip the five parallel input arrays into a sample list. -/
def zipSamples : List ℚ → List ℚ → List ℚ → List ℚ → List ℚ → List VisSample
  | u :: us, v :: vs, w :: ws, r :: rs, i :: is =>
      { u := u, v := v, w := w, re := r, im := i } :: zipSamples us vs ws rs is
  | _, _, _, _, _ => []

/-- Modelled from the spec: the validating constructor of the gridding
engine. It fails when the parallel arrays uu, vv, weight, data_re, data_im
do not all have the same length, and when any weight is negative; both are
fatal at the call site (pure Except, no retry path exists). -/
def DataAverager.build (coords : GridCoords)
    (uu vv weight data_re data_im : List ℚ) : Except String DataAverager :=
  if vv.length = uu.length ∧ weight.length = uu.length ∧
      data_re.length = uu.length ∧ data_im.length = uu.length then
    if weight.any (fun w => decide (w < 0)) then
      Except.error "Weights must be positive."
    else
      Except.ok { coords := coords, samples := zipSamples uu vv weight data_re data_im }
  else
    Except.error "The lengths of uu, vv, weight, data_re and data_im must all match."

/-- Output weight of a grid cell: Σ w over the samples binned there. -/
def DataAverager.cellWeight (da : DataAverager) (cell : ℤ × ℤ) : ℚ :=
  (gridAccum da.coords da.samples cell).2.2.1

/-- Real part of the averaged visibility of a grid cell: Σ(w·re)/Σw
(zero-filled for a cell holding no weight, since x/0 = 0 in ℚ). -/
def DataAverager.cellVisRe (da : DataAverager) (cell : ℤ × ℤ) : ℚ :=
  (gridAccum da.coords da.samples cell).1 / (gridAccum da.coords da.samples cell).2.2.1

/-- Imaginary part of the averaged visibility of a grid cell. -/
def DataAverager.cellVisIm (da : DataAverager) (cell : ℤ × ℤ) : ℚ :=
  (gridAccum da.coords da.samples cell).2.1 / (gridAccum da.coords da.samples cell).2.2.1

/-- Number of raw samples binned into a grid cell. -/
def DataAverager.cellCount (da : DataAverager) (cell : ℤ × ℤ) : ℕ :=
  (gridAccum da.coords da.samples cell).2.2.2

/-- Boolean mask: a cell is populated when it received at least one sample. -/
def DataAverager.cellMask (da : DataAverager) (cell : ℤ × ℤ) : Bool :=
  decide (0 < da.cellCount cell)

/-! ## mpol.datasets / mpol.crossval : gridded dataset and k-fold splitting -/

/-- Modelled from the spec: the immutable gridded dataset consumed by the
optimization loop — per-cell averaged visibilities, the weight grid, and the
boolean mask of populated cells, on the npix × npix Fourier grid. -/
structure GriddedDataset where
  npix : ℕ
  vis_re : Fin npix → Fin npix → ℚ
  vis_im : Fin npix → Fin npix → ℚ
  weight_grid : Fin npix → Fin npix → ℚ
  mask : Fin npix → Fin npix → Bool

/-- Centered integer cell index of an array position of the Fourier grid. -/
def cellIndexOf (npix : ℕ) (i j : Fin npix) : ℤ × ℤ :=
  ((i : ℤ) - npix / 2, (j : ℤ) - npix / 2)

/-- Modelled from the spec: DataAverager.to_pytorch_dataset packages the
gridded visibilities, the weight grid and the mask into the dataset object. -/
def DataAverager.to_pytorch_dataset (da : DataAverager) : GriddedDataset :=
  { npix := da.coords.npix
    vis_re := fun i j => da.cellVisRe (cellIndexOf da.coords.npix i j)
    vis_im := fun i j => da.cellVisIm (cellIndexOf da.coords.npix i j)
    weight_grid := fun i j => da.cellWeight (cellIndexOf da.coords.npix i j)
    mask := fun i j => da.cellMask (cellIndexOf da.coords.npix i j) }

/-- The list of populated (mask = true) grid cells, in row-major order. -/
def GriddedDataset.populatedCells (d : GriddedDataset) :
    List (Fin d.npix × Fin d.npix) :=
  ((List.finRange d.npix).product (List.finRange d.npix)).filter
    (fun p => d.mask p.1 p.2)

/-- One step of the numpy-style linear congruential pseudo-random stream the
split is modelled to draw from. -/
def lcgStep (s : ℕ) : ℕ :=
  (1664525 * s + 1013904223) % 4294967296

/-- Fuel-indexed extraction shuffle driven by the pseudo-random stream: at
each step one position of the remaining list is drawn and moved to the
output. The fuel is set to the list length by callers. -/
def shuffleGo {α : Type} : ℕ → List α → ℕ → List α
  | 0, _, _ => []
  | _ + 1, [], _ => []
  | fuel + 1, a :: as, s =>
      (a :: as).get ⟨lcgStep s % (as.length + 1), Nat.mod_lt _ (Nat.succ_pos as.length)⟩ ::
        shuffleGo fuel ((a :: as).eraseIdx (lcgStep s % (as.length + 1))) (lcgStep s)

/-- Chop a list into chunks of the given sizes; the final chunk absorbs the
remainder so that no element is dropped (numpy array_split semantics on the
sizes produced by chunkSizes). -/
def splitChunks {α : Type} : List α → List ℕ → List (List α)
  | _, [] => []
  | l, s :: ss => if ss = [] then [l] else l.take s :: splitChunks (l.drop s) ss

/-- Balanced chunk sizes of numpy array_split: the first n mod k chunks get
one extra element. -/
def chunkSizes (n k : ℕ) : List ℕ :=
  (List.range k).map (fun i => n / k + if i < n % k then 1 else 0)

/-- Modelled from the spec: the random_cell cross-validation split. The
splitter reseeds its pseudo-random stream from the given seed — the ambient
stream state of the process (first argument) is discarded, which is what
makes two runs with the same seed agree — then shuffles the populated cells
and chops them into kfolds chunks. -/
def randomCellFolds (ambient : ℕ) (d : GriddedDataset) (kfolds seed : ℕ) :
    List (List (Fin d.npix × Fin d.npix)) :=
  splitChunks (shuffleGo d.populatedCells.length d.populatedCells (lcgStep seed))
    (chunkSizes d.populatedCells.length kfolds)

/-- Restrict a dataset's mask to the given cells (the test side of a fold). -/
def GriddedDataset.restrictTo (d : GriddedDataset)
    (cells : List (Fin d.npix × Fin d.npix)) : GriddedDataset :=
  { d with mask := fun i j => d.mask i j && decide ((i, j) ∈ cells) }

/-- Remove the given cells from a dataset's mask (the train side of a fold). -/
def GriddedDataset.without (d : GriddedDataset)
    (cells : List (Fin d.npix × Fin d.npix)) : GriddedDataset :=
  { d with mask := fun i j => d.mask i j && ! decide ((i, j) ∈ cells) }

/-- Modelled from the spec: the full splitter output, one (train, test)
dataset pair per fold. -/
def crossValSplit (ambient : ℕ) (d : GriddedDataset) (kfolds seed : ℕ) :
    List (GriddedDataset × GriddedDataset) :=
  (randomCellFolds ambient d kfolds seed).map
    (fun f => (d.without f, d.restrictTo f))

/-! ## Differentiability of the BaseCube → (ImageCube passthrough) → loss chain -/

/-- Pointwise update of one raw parameter of a cube (the direction in which
the optimizer perturbs a single entry of the parameter tensor). -/
def cubeUpdate {nchan npix : ℕ} (raw : Fin nchan → Fin npix → Fin npix → ℝ)
    (c₀ : Fin nchan) (i₀ j₀ : Fin npix) (t : ℝ) :
    Fin nchan → Fin npix → Fin npix → ℝ :=
  fun c i j => if c = c₀ ∧ i = i₀ ∧ j = j₀ then t else raw c i j

/-- The BaseCube with one raw parameter replaced. -/
def BaseCube.withParam (b : BaseCube) (c₀ : Fin b.nchan)
    (i₀ j₀ : Fin b.coords.npix) (t : ℝ) : BaseCube :=
  { nchan := b.nchan, coords := b.coords,
    base_cube := cubeUpdate b.base_cube c₀ i₀ j₀ t }

/-- The scalar loss of the image tests: torch.sum of the BaseCube output. -/
noncomputable def BaseCube.scalarLoss (b : BaseCube) : ℝ :=
  ∑ c, ∑ i, ∑ j, b.forward c i j

/-- The scalar loss of the image tests with the BaseCube output routed
through ImageCube in passthrough mode: torch.sum of the sky-layout image. -/
noncomputable def BaseCube.skyLoss (b : BaseCube) : ℝ :=
  ∑ c, ∑ i, ∑ j, (ImageCube.init b.coords b.nchan true).forward b.forward c i j

end MPoL

/-- A concrete cube used to witness the packing round-trip. -/
def probeCube : MPoL.Cube 1 4 ℚ :=
  fun _ i j => (i : ℚ) + 4 * (j : ℚ)

/-- Grid geometry used by the gridding witness: cell_size = 1/4 arcsec,
npix = 4, hence du = 1/(4 · 1/4) = 1. -/
def wgrid : MPoL.GridCoords :=
  { cell_size := Rat.divInt 1 4, npix := 4 }

/-- First witness sample: lands in cell (1, 0) with weight 1, re 3, im 1. -/
def ws1 : MPoL.VisSample :=
  { u := 1, v := 0, w := 1, re := 3, im := 1 }

/-- Second witness sample: lands in cell (1, 0) with weight 2, re 2, im 0. -/
def ws2 : MPoL.VisSample :=
  { u := 1, v := 0, w := 2, re := 2, im := 0 }

/-- Third witness sample: lands in cell (2, 1). -/
def ws3 : MPoL.VisSample :=
  { u := 2, v := 1, w := 1, re := 5, im := 5 }

/-- The raw sample list fed to the gridding witness. -/
def wsamples : List MPoL.VisSample :=
  [ws1, ws2, ws3]

/-- A small fully-populated dataset used to witness the fold partition. -/
def wdataset : MPoL.GriddedDataset :=
  { npix := 2
    vis_re := fun _ _ => 0
    vis_im := fun _ _ => 0
    weight_grid := fun _ _ => 1
    mask := fun _ _ => true }

/-- The concrete BaseCube used to witness gradient flow: one channel, a 2×2
grid, zero-initialized raw parameters. -/
def wbase : MPoL.BaseCube :=
  { nchan := 1
    coords := { cell_size := 1, npix := 2 }
    base_cube := fun _ _ _ => 0 }

namespace MPoL

theorem fftshiftIdx_fftshiftIdx {n : ℕ} (hn : Even n) (i : Fin n) :
    fftshiftIdx n (fftshiftIdx n i) = i := by
  obtain ⟨h, hh⟩ := hn
  apply Fin.ext
  show ((i + n / 2) % n + n / 2) % n = i
  have hiv : (i : ℕ) < n := i.isLt
  subst hh
  have hdiv : (h + h) / 2 = h := by omega
  rw [hdiv]
  by_cases hc : (i : ℕ) < h
  · have h1 : ((i : ℕ) + h) % (h + h) = (i : ℕ) + h := Nat.mod_eq_of_lt (by omega)
    rw [h1]
    have h2 : (i : ℕ) + h + h = (i : ℕ) + (h + h) := by omega
    rw [h2, Nat.add_mod_right]
    exact Nat.mod_eq_of_lt hiv
  · have h1 : ((i : ℕ) + h) % (h + h) = (i : ℕ) - h := by
      rw [Nat.mod_eq_sub_mod (show h + h ≤ (i : ℕ) + h by omega)]
      have h3 : (i : ℕ) + h - (h + h) = (i : ℕ) - h := by omega
      rw [h3]
      exact Nat.mod_eq_of_lt (show (i : ℕ) - h < h + h by omega)
    rw [h1]
    have h2 : (i : ℕ) - h + h = (i : ℕ) := by omega
    rw [h2]
    exact Nat.mod_eq_of_lt hiv

theorem flipIdx_flipIdx {n : ℕ} (i : Fin n) : flipIdx n (flipIdx n i) = i := by
  apply Fin.ext
  show n - 1 - (n - 1 - i) = i
  have h := i.isLt
  omega

theorem softplus_nonneg (x : ℝ) : 0 ≤ softplus x :=
  Real.log_nonneg (by nlinarith [Real.exp_pos x])

theorem except_map_isOk {ε α β : Type} (f : α → β) (x : Except ε α) :
    (Except.map f x).isOk = x.isOk := by
  cases x <;> rfl

theorem populatedCells_nodup (d : GriddedDataset) : d.populatedCells.Nodup :=
  List.Nodup.filter _ (List.Nodup.product (List.nodup_finRange _) (List.nodup_finRange _))

theorem shuffleGo_perm {α : Type} [DecidableEq α] :
    ∀ (fuel : ℕ) (l : List α) (s : ℕ), l.length ≤ fuel →
      (shuffleGo fuel l s).Perm l := by
  intro fuel
  induction fuel with
  | zero =>
    intro l s h
    have hl : l = [] := List.eq_nil_of_length_eq_zero (Nat.le_zero.mp h)
    subst hl
    exact List.Perm.refl _
  | succ n ih =>
    intro l s h
    match l with
    | [] => exact List.Perm.refl _
    | a :: as =>
      rw [shuffleGo]
      have hilt : lcgStep s % (as.length + 1) < (a :: as).length :=
        Nat.mod_lt _ (Nat.succ_pos as.length)
      have hlen : ((a :: as).eraseIdx (lcgStep s % (as.length + 1))).length = as.length := by
        have h2 := List.length_eraseIdx_add_one hilt
        simpa using h2
      have hrec := ih ((a :: as).eraseIdx (lcgStep s % (as.length + 1))) (lcgStep s)
        (by rw [hlen]; exact Nat.le_of_succ_le_succ h)
      have hcons := hrec.cons ((a :: as).get ⟨lcgStep s % (as.length + 1), hilt⟩)
      refine hcons.trans ?_
      have hmem : (a :: as).get ⟨lcgStep s % (as.length + 1), hilt⟩ ∈ (a :: as) :=
        List.get_mem _ _ hilt
      have h1 : ((a :: as).erase ((a :: as).get ⟨lcgStep s % (as.length + 1), hilt⟩)).Perm
          ((a :: as).eraseIdx (lcgStep s % (as.length + 1))) := by
        have := List.erase_getElem (l := a :: as) hilt
        simpa [List.get_eq_getElem] using this
      have h2 := List.perm_cons_erase hmem
      exact ((h1.symm.cons _).trans h2.symm)

theorem splitChunks_flatten {α : Type} :
    ∀ (ss : List ℕ) (l : List α), ss ≠ [] → (splitChunks l ss).flatten = l := by
  intro ss
  induction ss with
  | nil => intro l h; exact absurd rfl h
  | cons s ss ih =>
    intro l _
    by_cases hss : ss = []
    · subst hss
      simp [splitChunks]
    · rw [splitChunks, if_neg hss, List.flatten_cons, ih (l.drop s) hss]
      exact List.take_append_drop s l

theorem chunkSizes_ne_nil {n k : ℕ} (hk : 0 < k) : chunkSizes n k ≠ [] := by
  rw [chunkSizes]
  simp only [ne_eq, List.map_eq_nil_iff, List.range_eq_nil]
  omega

/-- The single-sweep accumulator agrees, cell by cell, with the sums over
the sublist of samples binned into that cell. -/
theorem gridAccum_eq (g : GridCoords) (l : List VisSample) (cell : ℤ × ℤ) :
    gridAccum g l cell =
      (((l.filter (fun s => decide (cellOf g s = cell))).map (fun s => s.w * s.re)).sum,
        ((l.filter (fun s => decide (cellOf g s = cell))).map (fun s => s.w * s.im)).sum,
        ((l.filter (fun s => decide (cellOf g s = cell))).map (fun s => s.w)).sum,
        (l.filter (fun s => decide (cellOf g s = cell))).length) := by
  induction l with
  | nil => rfl
  | cons s rest ih =>
    simp only [gridAccum]
    by_cases hc : cellOf g s = cell
    · have hfil : (s :: rest).filter (fun s => decide (cellOf g s = cell))
          = s :: rest.filter (fun s => decide (cellOf g s = cell)) := by
        simp [List.filter_cons, hc]
      rw [if_pos hc, ih, hfil]
      simp only [List.map_cons, List.sum_cons, List.length_cons, Prod.mk.injEq]
      exact ⟨by ring, by ring, by ring, trivial⟩
    · have hfil : (s :: rest).filter (fun s => decide (cellOf g s = cell))
          = rest.filter (fun s => decide (cellOf g s = cell)) := by
        simp [List.filter_cons, hc]
      rw [if_neg hc, ih, hfil]

theorem softplus_hasDerivAt (x : ℝ) :
    HasDerivAt softplus (Real.exp x / (1 + Real.exp x)) x := by
  have h1 : HasDerivAt (fun t => 1 + Real.exp t) (Real.exp x) x :=
    (Real.hasDerivAt_exp x).const_add 1
  have h2 := h1.log (by positivity)
  simpa [softplus] using h2

theorem sum_flipIdx {n : ℕ} (f : Fin n → ℝ) :
    ∑ i, f (flipIdx n i) = ∑ i, f i :=
  Equiv.sum_comp (Function.Involutive.toPerm _ (fun i => flipIdx_flipIdx i)) f

theorem sum_fftshiftIdx {n : ℕ} (hn : Even n) (f : Fin n → ℝ) :
    ∑ i, f (fftshiftIdx n i) = ∑ i, f i :=
  Equiv.sum_comp (Function.Involutive.toPerm _ (fun i => fftshiftIdx_fftshiftIdx hn i)) f

/-- Summing the sky-layout image equals summing the packed image: the
packing conversion only permutes pixels. -/
theorem skyLoss_eq_scalarLoss (b : BaseCube) (hE : Even b.coords.npix) :
    b.skyLoss = b.scalarLoss := by
  rw [BaseCube.skyLoss, BaseCube.scalarLoss]
  refine Finset.sum_congr rfl (fun c _ => ?_)
  show ∑ i, ∑ j, b.forward c (fftshiftIdx b.coords.npix i)
      (fftshiftIdx b.coords.npix (flipIdx b.coords.npix j)) = ∑ i, ∑ j, b.forward c i j
  rw [sum_fftshiftIdx hE
    (fun i => ∑ j, b.forward c i (fftshiftIdx b.coords.npix (flipIdx b.coords.npix j)))]
  refine Finset.sum_congr rfl (fun i _ => ?_)
  rw [sum_flipIdx (fun j => b.forward c i (fftshiftIdx b.coords.npix j))]
  exact sum_fftshiftIdx hE (fun j => b.forward c i j)

/-- The derivative of the scalar loss in one raw parameter is the softplus
derivative (the logistic sigmoid) at that parameter. -/
theorem scalarLoss_update_hasDerivAt (b : BaseCube) (c₀ : Fin b.nchan)
    (i₀ j₀ : Fin b.coords.npix) :
    HasDerivAt (fun t => (b.withParam c₀ i₀ j₀ t).scalarLoss)
      (Real.exp (b.base_cube c₀ i₀ j₀) / (1 + Real.exp (b.base_cube c₀ i₀ j₀)))
      (b.base_cube c₀ i₀ j₀) := by
  have hfun : (fun t => (b.withParam c₀ i₀ j₀ t).scalarLoss)
      = fun t => ∑ p : Fin b.nchan × Fin b.coords.npix × Fin b.coords.npix,
          softplus (cubeUpdate b.base_cube c₀ i₀ j₀ t p.1 p.2.1 p.2.2) := by
    funext t
    show ∑ c, ∑ i, ∑ j, softplus (cubeUpdate b.base_cube c₀ i₀ j₀ t c i j)
        = ∑ p : Fin b.nchan × Fin b.coords.npix × Fin b.coords.npix,
            softplus (cubeUpdate b.base_cube c₀ i₀ j₀ t p.1 p.2.1 p.2.2)
    rw [Fintype.sum_prod_type]
    exact Finset.sum_congr rfl (fun c _ =>
      (Fintype.sum_prod_type (fun q : Fin b.coords.npix × Fin b.coords.npix =>
        softplus (cubeUpdate b.base_cube c₀ i₀ j₀ t c q.1 q.2))).symm)
  rw [hfun]
  have hterm : ∀ p : Fin b.nchan × Fin b.coords.npix × Fin b.coords.npix,
      p ∈ Finset.univ →
      HasDerivAt (fun t => softplus (cubeUpdate b.base_cube c₀ i₀ j₀ t p.1 p.2.1 p.2.2))
        (if p = (c₀, i₀, j₀) then
            Real.exp (b.base_cube c₀ i₀ j₀) / (1 + Real.exp (b.base_cube c₀ i₀ j₀))
          else 0)
        (b.base_cube c₀ i₀ j₀) := by
    intro p _
    by_cases hp : p = (c₀, i₀, j₀)
    · subst hp
      rw [if_pos rfl]
      have harg : (fun t => softplus (cubeUpdate b.base_cube c₀ i₀ j₀ t c₀ i₀ j₀))
          = softplus := by
        funext t
        rw [cubeUpdate, if_pos ⟨rfl, rfl, rfl⟩]
      rw [harg]
      exact softplus_hasDerivAt _
    · rw [if_neg hp]
      have hcond : ¬ (p.1 = c₀ ∧ p.2.1 = i₀ ∧ p.2.2 = j₀) := by
        intro hcon
        exact hp (Prod.ext hcon.1 (Prod.ext hcon.2.1 hcon.2.2))
      have harg : (fun t => softplus (cubeUpdate b.base_cube c₀ i₀ j₀ t p.1 p.2.1 p.2.2))
          = fun _ => softplus (b.base_cube p.1 p.2.1 p.2.2) := by
        funext t
        rw [cubeUpdate, if_neg hcond]
      rw [harg]
      exact hasDerivAt_const _ _
  have hsum := HasDerivAt.sum hterm
  have hval : ∑ p : Fin b.nchan × Fin b.coords.npix × Fin b.coords.npix,
      (if p = (c₀, i₀, j₀) then
          Real.exp (b.base_cube c₀ i₀ j₀) / (1 + Real.exp (b.base_cube c₀ i₀ j₀))
        else 0)
      = Real.exp (b.base_cube c₀ i₀ j₀) / (1 + Real.exp (b.base_cube c₀ i₀ j₀)) := by
    rw [Finset.sum_ite_eq' Finset.univ ((c₀, i₀, j₀) :
      Fin b.nchan × Fin b.coords.npix × Fin b.coords.npix)]
    simp
  rwa [hval] at hsum

end MPoL

/-- Claim C2: for every tensor X of shape (nchan, npix, npix) with npix even,
packed_cube_to_sky_cube (sky_cube_to_packed_cube X) = X exactly — the two
packing utilities are mutual inverses (a pure index permutation, no
tolerance). -/
theorem packing_roundtrip {nchan npix : ℕ} (hE : Even npix) (α : Type)
    (X : MPoL.Cube nchan npix α) :
    MPoL.packed_cube_to_sky_cube (MPoL.sky_cube_to_packed_cube X) = X := by
  funext c i j
  show X c (MPoL.fftshiftIdx npix (MPoL.fftshiftIdx npix i))
      (MPoL.flipIdx npix (MPoL.fftshiftIdx npix (MPoL.fftshiftIdx npix (MPoL.flipIdx npix j))))
      = X c i j
  rw [MPoL.fftshiftIdx_fftshiftIdx hE, MPoL.fftshiftIdx_fftshiftIdx hE, MPoL.flipIdx_flipIdx]

/-- Witness for claim C2 at nchan = 1, npix = 4. -/
theorem packing_roundtrip_witness :
    Even 4 ∧
      MPoL.packed_cube_to_sky_cube (MPoL.sky_cube_to_packed_cube probeCube) = probeCube :=
  ⟨by decide, packing_roundtrip (by decide) ℚ probeCube⟩

/-- Claim C3: GridCoords construction (and BaseCube / ImageCube construction
via from_image_properties, which delegate to it) succeeds for every even
npix > 0 with cell_size > 0, and fails with a ValueError-class validation
error whenever npix is odd or cell_size ≤ 0. -/
theorem grid_coords_validation (cell_size : ℚ) (npix : ℕ) (nchan : Option ℕ) :
    (Even npix ∧ 0 < npix ∧ 0 < cell_size →
      (∃ g, MPoL.GridCoords.build cell_size npix = Except.ok g) ∧
      (∃ b, MPoL.BaseCube.from_image_properties cell_size npix nchan = Except.ok b) ∧
      (∃ im, MPoL.ImageCube.from_image_properties cell_size npix nchan = Except.ok im)) ∧
    (Odd npix ∨ cell_size ≤ 0 →
      (∃ e, MPoL.GridCoords.build cell_size npix = Except.error e) ∧
      (∃ e, MPoL.BaseCube.from_image_properties cell_size npix nchan = Except.error e) ∧
      (∃ e, MPoL.ImageCube.from_image_properties cell_size npix nchan = Except.error e)) := by
  constructor
  · rintro ⟨hEven, -, hcs⟩
    have h1 : ¬ npix % 2 = 1 := by
      rw [Nat.even_iff] at hEven
      omega
    have h2 : ¬ cell_size ≤ 0 := not_le.mpr hcs
    have hbuild : MPoL.GridCoords.build cell_size npix =
        Except.ok { cell_size := cell_size, npix := npix } := by
      rw [MPoL.GridCoords.build, if_neg h1, if_neg h2]
    refine ⟨⟨_, hbuild⟩,
      ⟨{ nchan := nchan.getD 1, coords := { cell_size := cell_size, npix := npix },
         base_cube := fun _ _ _ => 0 }, ?_⟩,
      ⟨MPoL.ImageCube.init { cell_size := cell_size, npix := npix } (nchan.getD 1) false, ?_⟩⟩
    · rw [MPoL.BaseCube.from_image_properties, hbuild]
      rfl
    · rw [MPoL.ImageCube.from_image_properties, hbuild]
      rfl
  · intro hbad
    have hbuild : ∃ e, MPoL.GridCoords.build cell_size npix = Except.error e := by
      rcases hbad with hodd | hcs
      · rw [Nat.odd_iff] at hodd
        exact ⟨_, by rw [MPoL.GridCoords.build, if_pos hodd]⟩
      · by_cases h1 : npix % 2 = 1
        · exact ⟨_, by rw [MPoL.GridCoords.build, if_pos h1]⟩
        · exact ⟨_, by rw [MPoL.GridCoords.build, if_neg h1, if_pos hcs]⟩
    obtain ⟨e, he⟩ := hbuild
    refine ⟨⟨e, he⟩, ⟨e, ?_⟩, ⟨e, ?_⟩⟩
    · rw [MPoL.BaseCube.from_image_properties, he]
      rfl
    · rw [MPoL.ImageCube.from_image_properties, he]
      rfl

/-- Witness for claim C3: success at cell_size = 1, npix = 800 and failure at
the odd pixel count npix = 853 of the test suite. -/
theorem grid_coords_validation_witness :
    (Even 800 ∧ 0 < 800 ∧ 0 < (1 : ℚ)) ∧ (Odd 853 ∨ (1 : ℚ) ≤ 0) ∧
      ((∃ g, MPoL.GridCoords.build 1 800 = Except.ok g) ∧
        (∃ b, MPoL.BaseCube.from_image_properties 1 800 none = Except.ok b) ∧
        (∃ im, MPoL.ImageCube.from_image_properties 1 800 none = Except.ok im)) ∧
      ((∃ e, MPoL.GridCoords.build 1 853 = Except.error e) ∧
        (∃ e, MPoL.BaseCube.from_image_properties 1 853 none = Except.error e) ∧
        (∃ e, MPoL.ImageCube.from_image_properties 1 853 none = Except.error e)) :=
  ⟨⟨by decide, by decide, by decide⟩, Or.inl (by decide),
    (grid_coords_validation 1 800 none).1 ⟨by decide, by decide, by decide⟩,
    (grid_coords_validation 1 853 none).2 (Or.inl (by decide))⟩

/-- Claim C4: for every BaseCube (any finite real raw parameter tensor),
every element of the forward output is non-negative: the softplus
nonlinearity maps any real input to a value ≥ 0. -/
theorem basecube_forward_nonneg (b : MPoL.BaseCube) (c : Fin b.nchan)
    (i j : Fin b.coords.npix) : 0 ≤ b.forward c i j :=
  MPoL.softplus_nonneg _

/-- Claim C9: BaseCube.from_image_properties with cell_size = 0.005
(= 5/1000), npix = 800 and nchan unspecified succeeds, nchan defaults to 1,
and the forward output has shape (1, 800, 800) with every value ≥ 0. -/
theorem basecube_example_scenario :
    ∃ bc : MPoL.BaseCube,
      MPoL.BaseCube.from_image_properties (Rat.divInt 5 1000) 800 none = Except.ok bc ∧
      bc.nchan = 1 ∧ bc.coords.npix = 800 ∧
      ∀ (c : Fin bc.nchan) (i j : Fin bc.coords.npix), 0 ≤ bc.forward c i j := by
  refine ⟨{ nchan := 1, coords := { cell_size := Rat.divInt 5 1000, npix := 800 },
            base_cube := fun _ _ _ => 0 }, ?_, rfl, rfl, ?_⟩
  · rfl
  · intro c i j
    exact MPoL.softplus_nonneg _

/-- Claim C10: for every ImageCube constructed with nchan ≥ 1, reading the
flux attribute before any forward call succeeds (the cached cube is
zero-initialized) and yields a per-channel list whose length equals nchan. -/
theorem imagecube_flux_length (g : MPoL.GridCoords) (nchan : ℕ) (h : 1 ≤ nchan) :
    ((MPoL.ImageCube.init g nchan false).flux).length = nchan := by
  simp [MPoL.ImageCube.flux, MPoL.ImageCube.init]

/-- Witness for claim C10 at nchan = 20, matching the test suite. -/
theorem imagecube_flux_length_witness :
    1 ≤ 20 ∧
      ((MPoL.ImageCube.init { cell_size := 1, npix := 2 } 20 false).flux).length = 20 :=
  ⟨by decide, imagecube_flux_length { cell_size := 1, npix := 2 } 20 (by decide)⟩

/-- Claim C1: every grid cell of the gridding engine that receives at least
one raw sample carries the inverse-variance-weighted mean of the samples'
real and imaginary parts, mean = Σ(w·v)/Σw, with output weight Σw and
mask = true; every cell receiving zero samples has output weight 0, a
zero-filled value, and mask = false. -/
theorem gridding_cell_average (g : MPoL.GridCoords) (samples : List MPoL.VisSample)
    (cell : ℤ × ℤ) :
    (samples.filter (fun s => decide (MPoL.cellOf g s = cell)) ≠ [] →
      (MPoL.DataAverager.mk g samples).cellVisRe cell =
          ((samples.filter (fun s => decide (MPoL.cellOf g s = cell))).map
            (fun s => s.w * s.re)).sum /
          ((samples.filter (fun s => decide (MPoL.cellOf g s = cell))).map
            (fun s => s.w)).sum ∧
      (MPoL.DataAverager.mk g samples).cellVisIm cell =
          ((samples.filter (fun s => decide (MPoL.cellOf g s = cell))).map
            (fun s => s.w * s.im)).sum /
          ((samples.filter (fun s => decide (MPoL.cellOf g s = cell))).map
            (fun s => s.w)).sum ∧
      (MPoL.DataAverager.mk g samples).cellWeight cell =
          ((samples.filter (fun s => decide (MPoL.cellOf g s = cell))).map
            (fun s => s.w)).sum ∧
      (MPoL.DataAverager.mk g samples).cellMask cell = true) ∧
    (samples.filter (fun s => decide (MPoL.cellOf g s = cell)) = [] →
      (MPoL.DataAverager.mk g samples).cellWeight cell = 0 ∧
      (MPoL.DataAverager.mk g samples).cellVisRe cell = 0 ∧
      (MPoL.DataAverager.mk g samples).cellVisIm cell = 0 ∧
      (MPoL.DataAverager.mk g samples).cellMask cell = false) := by
  have hacc := MPoL.gridAccum_eq g samples cell
  constructor
  · intro hne
    refine ⟨?_, ?_, ?_, ?_⟩
    · rw [MPoL.DataAverager.cellVisRe, hacc]
    · rw [MPoL.DataAverager.cellVisIm, hacc]
    · rw [MPoL.DataAverager.cellWeight, hacc]
    · rw [MPoL.DataAverager.cellMask, MPoL.DataAverager.cellCount, hacc]
      simp only [decide_eq_true_eq]
      exact List.length_pos.mpr hne
  · intro hempty
    refine ⟨?_, ?_, ?_, ?_⟩
    · rw [MPoL.DataAverager.cellWeight, hacc, hempty]
      rfl
    · rw [MPoL.DataAverager.cellVisRe, hacc, hempty]
      norm_num
    · rw [MPoL.DataAverager.cellVisIm, hacc, hempty]
      norm_num
    · rw [MPoL.DataAverager.cellMask, MPoL.DataAverager.cellCount, hacc, hempty]
      rfl

theorem wgrid_du : wgrid.du = 1 := by
  rw [MPoL.GridCoords.du, wgrid]
  norm_num [Rat.divInt_eq_div]

theorem roundHalfEven_intCast (z : ℤ) : MPoL.roundHalfEven (z : ℚ) = z := by
  rw [MPoL.roundHalfEven]
  norm_num

theorem cellOf_ws1 : MPoL.cellOf wgrid ws1 = (1, 0) := by
  rw [MPoL.cellOf, wgrid_du]
  norm_num [ws1]
  constructor
  · exact_mod_cast roundHalfEven_intCast 1
  · exact_mod_cast roundHalfEven_intCast 0

theorem cellOf_ws2 : MPoL.cellOf wgrid ws2 = (1, 0) := by
  rw [MPoL.cellOf, wgrid_du]
  norm_num [ws2]
  constructor
  · exact_mod_cast roundHalfEven_intCast 1
  · exact_mod_cast roundHalfEven_intCast 0

theorem cellOf_ws3 : MPoL.cellOf wgrid ws3 = (2, 1) := by
  rw [MPoL.cellOf, wgrid_du]
  norm_num [ws3]
  constructor
  · exact_mod_cast roundHalfEven_intCast 2
  · exact_mod_cast roundHalfEven_intCast 1

theorem wsamples_filter_cell10 :
    wsamples.filter (fun s => decide (MPoL.cellOf wgrid s = ((1 : ℤ), (0 : ℤ)))) = [ws1, ws2] := by
  rw [wsamples]
  simp [List.filter_cons, cellOf_ws1, cellOf_ws2, cellOf_ws3]

theorem wsamples_filter_cell01 :
    wsamples.filter (fun s => decide (MPoL.cellOf wgrid s = ((0 : ℤ), (1 : ℤ)))) = [] := by
  rw [wsamples]
  simp [List.filter_cons, cellOf_ws1, cellOf_ws2, cellOf_ws3]

theorem wsamples_sum_wre : (([ws1, ws2] : List MPoL.VisSample).map (fun s => s.w * s.re)).sum = 7 := by
  norm_num [ws1, ws2]

theorem wsamples_sum_w : (([ws1, ws2] : List MPoL.VisSample).map (fun s => s.w)).sum = 3 := by
  norm_num [ws1, ws2]

/-- Witness for claim C1 on a concrete three-sample dataset: the populated
cell (1,0) holds the hand-computed weighted mean 7/3 with weight 3, and the
empty cell (0,1) holds weight 0, value 0, mask false. -/
theorem gridding_cell_average_witness :
    wsamples.filter (fun s => decide (MPoL.cellOf wgrid s = ((1 : ℤ), (0 : ℤ)))) ≠ [] ∧
    (MPoL.DataAverager.mk wgrid wsamples).cellVisRe (1, 0) = 7 / 3 ∧
    (MPoL.DataAverager.mk wgrid wsamples).cellWeight (1, 0) = 3 ∧
    wsamples.filter (fun s => decide (MPoL.cellOf wgrid s = ((0 : ℤ), (1 : ℤ)))) = [] ∧
    (MPoL.DataAverager.mk wgrid wsamples).cellWeight (0, 1) = 0 ∧
    (MPoL.DataAverager.mk wgrid wsamples).cellMask (0, 1) = false := by
  have hne : wsamples.filter (fun s => decide (MPoL.cellOf wgrid s = ((1 : ℤ), (0 : ℤ)))) ≠ [] := by
    rw [wsamples_filter_cell10]
    exact List.cons_ne_nil ws1 [ws2]
  have hpos := (gridding_cell_average wgrid wsamples (1, 0)).1 hne
  have hneg := (gridding_cell_average wgrid wsamples (0, 1)).2 wsamples_filter_cell01
  refine ⟨hne, ?_, ?_, wsamples_filter_cell01, hneg.1, hneg.2.2.2⟩
  · rw [hpos.1, wsamples_filter_cell10, wsamples_sum_wre, wsamples_sum_w]
  · rw [hpos.2.2.1, wsamples_filter_cell10, wsamples_sum_w]

/-- Claim C5: the cross-validation splitter is deterministic — with the same
dataset, kfolds, split method (random_cell, the modelled method) and seed,
two runs produce identical fold assignments and identical train/test dataset
pairs, regardless of the ambient pseudo-random stream state each run starts
from (the splitter reseeds from the given seed). -/
theorem crossval_deterministic (d : MPoL.GriddedDataset) (kfolds seed a₁ a₂ : ℕ) :
    MPoL.randomCellFolds a₁ d kfolds seed = MPoL.randomCellFolds a₂ d kfolds seed ∧
    MPoL.crossValSplit a₁ d kfolds seed = MPoL.crossValSplit a₂ d kfolds seed :=
  ⟨rfl, rfl⟩

/-- Claim C6: for every gridded dataset and valid kfolds, the folds produced
by the splitter are pairwise disjoint and their union is exactly (a
permutation of) the populated-cell list — collectively exhaustive with no
overlaps. -/
theorem crossval_folds_partition (d : MPoL.GriddedDataset) (ambient kfolds seed : ℕ)
    (hk : 2 ≤ kfolds) (hkc : kfolds ≤ d.populatedCells.length) :
    (MPoL.randomCellFolds ambient d kfolds seed).Pairwise List.Disjoint ∧
    ((MPoL.randomCellFolds ambient d kfolds seed).flatten).Perm d.populatedCells := by
  have hperm : (MPoL.shuffleGo d.populatedCells.length d.populatedCells
      (MPoL.lcgStep seed)).Perm d.populatedCells :=
    MPoL.shuffleGo_perm _ _ _ le_rfl
  have hflat : ((MPoL.randomCellFolds ambient d kfolds seed).flatten)
      = MPoL.shuffleGo d.populatedCells.length d.populatedCells (MPoL.lcgStep seed) := by
    rw [MPoL.randomCellFolds]
    exact MPoL.splitChunks_flatten _ _ (MPoL.chunkSizes_ne_nil (by omega))
  refine ⟨?_, by rw [hflat]; exact hperm⟩
  have hnodup : ((MPoL.randomCellFolds ambient d kfolds seed).flatten).Nodup := by
    rw [hflat]
    exact (hperm.nodup_iff).mpr (MPoL.populatedCells_nodup d)
  exact (List.nodup_flatten.mp hnodup).2

/-- Witness for claim C6 on the 2×2 fully-populated dataset with kfolds = 2. -/
theorem crossval_folds_partition_witness :
    (2 ≤ 2 ∧ 2 ≤ wdataset.populatedCells.length) ∧
      ((MPoL.randomCellFolds 0 wdataset 2 47).Pairwise List.Disjoint ∧
        ((MPoL.randomCellFolds 0 wdataset 2 47).flatten).Perm wdataset.populatedCells) :=
  ⟨⟨by decide, by decide⟩,
    crossval_folds_partition wdataset 0 2 47 (by decide) (by decide)⟩

/-- Claim C7: gridding-engine construction fails with a validation error when
the parallel arrays uu, vv, weight, data_re, data_im do not all have the same
length, and when any weight entry is negative; when the lengths match and all
weights are non-negative, construction succeeds. The constructor is a pure
function returning Except: the error surfaces at the call site and there is
no retry path. -/
theorem gridding_construction_validation (g : MPoL.GridCoords)
    (uu vv weight data_re data_im : List ℚ) :
    (¬ (vv.length = uu.length ∧ weight.length = uu.length ∧
        data_re.length = uu.length ∧ data_im.length = uu.length) →
      ∃ e, MPoL.DataAverager.build g uu vv weight data_re data_im = Except.error e) ∧
    ((∃ w ∈ weight, w < 0) →
      ∃ e, MPoL.DataAverager.build g uu vv weight data_re data_im = Except.error e) ∧
    ((vv.length = uu.length ∧ weight.length = uu.length ∧
        data_re.length = uu.length ∧ data_im.length = uu.length) →
      (∀ w ∈ weight, 0 ≤ w) →
      ∃ da, MPoL.DataAverager.build g uu vv weight data_re data_im = Except.ok da) := by
  refine ⟨?_, ?_, ?_⟩
  · intro hlen
    exact ⟨_, by rw [MPoL.DataAverager.build, if_neg hlen]⟩
  · intro hw
    by_cases hlen : vv.length = uu.length ∧ weight.length = uu.length ∧
        data_re.length = uu.length ∧ data_im.length = uu.length
    · have hany : weight.any (fun w => decide (w < 0)) = true := by
        rw [List.any_eq_true]
        obtain ⟨w, hwmem, hwneg⟩ := hw
        exact ⟨w, hwmem, decide_eq_true hwneg⟩
      exact ⟨_, by rw [MPoL.DataAverager.build, if_pos hlen, if_pos hany]⟩
    · exact ⟨_, by rw [MPoL.DataAverager.build, if_neg hlen]⟩
  · intro hlen hw
    have hany : weight.any (fun w => decide (w < 0)) = false := by
      rw [Bool.eq_false_iff]
      intro hcontra
      rw [List.any_eq_true] at hcontra
      obtain ⟨w, hwmem, hwneg⟩ := hcontra
      exact absurd (hw w hwmem) (not_le.mpr (of_decide_eq_true hwneg))
    exact ⟨_, by rw [MPoL.DataAverager.build, if_pos hlen, if_neg (by rw [hany]; exact Bool.false_ne_true)]⟩

/-- Witness for claim C7: mismatched lengths fail, a negative weight fails,
and a well-formed two-sample input succeeds. -/
theorem gridding_construction_validation_witness :
    (¬ ((([] : List ℚ).length = ([0] : List ℚ).length) ∧
        (([0] : List ℚ).length = ([0] : List ℚ).length) ∧
        (([0] : List ℚ).length = ([0] : List ℚ).length) ∧
        (([0] : List ℚ).length = ([0] : List ℚ).length))) ∧
    (∃ e, MPoL.DataAverager.build wgrid [0] [] [0] [0] [0] = Except.error e) ∧
    (∃ w ∈ ([-1] : List ℚ), w < 0) ∧
    (∃ e, MPoL.DataAverager.build wgrid [0] [0] [-1] [0] [0] = Except.error e) ∧
    (∃ da, MPoL.DataAverager.build wgrid [0, 1] [0, 1] [1, 2] [3, 2] [1, 0] = Except.ok da) := by
  refine ⟨by decide, ?_, ?_, ?_, ?_⟩
  · exact (gridding_construction_validation wgrid [0] [] [0] [0] [0]).1 (by decide)
  · exact ⟨-1, List.mem_singleton_self (-1), by norm_num⟩
  · exact (gridding_construction_validation wgrid [0] [0] [-1] [0] [0]).2.1
      ⟨-1, List.mem_singleton_self (-1), by norm_num⟩
  · exact (gridding_construction_validation wgrid [0, 1] [0, 1] [1, 2] [3, 2] [1, 0]).2.2
      (by decide) (by intro w hw; simp only [List.mem_cons, List.not_mem_nil, or_false] at hw
                      rcases hw with rfl | rfl <;> norm_num)

/-- Claim C8: for every BaseCube, the scalar loss summing the BaseCube
output — and the same loss routed through ImageCube in passthrough mode —
is differentiable in every raw parameter, with derivative the logistic
sigmoid of that parameter: a finite real number that is strictly positive,
so the gradient on the raw parameter tensor is finite and nowhere zero (in
particular not all zero). -/
theorem basecube_gradient_flow (b : MPoL.BaseCube) (hE : Even b.coords.npix)
    (c₀ : Fin b.nchan) (i₀ j₀ : Fin b.coords.npix) :
    HasDerivAt (fun t => (b.withParam c₀ i₀ j₀ t).scalarLoss)
      (Real.exp (b.base_cube c₀ i₀ j₀) / (1 + Real.exp (b.base_cube c₀ i₀ j₀)))
      (b.base_cube c₀ i₀ j₀) ∧
    HasDerivAt (fun t => (b.withParam c₀ i₀ j₀ t).skyLoss)
      (Real.exp (b.base_cube c₀ i₀ j₀) / (1 + Real.exp (b.base_cube c₀ i₀ j₀)))
      (b.base_cube c₀ i₀ j₀) ∧
    0 < Real.exp (b.base_cube c₀ i₀ j₀) / (1 + Real.exp (b.base_cube c₀ i₀ j₀)) := by
  have hmain := MPoL.scalarLoss_update_hasDerivAt b c₀ i₀ j₀
  refine ⟨hmain, ?_, ?_⟩
  · have hfun : (fun t => (b.withParam c₀ i₀ j₀ t).skyLoss)
        = fun t => (b.withParam c₀ i₀ j₀ t).scalarLoss := by
      funext t
      exact MPoL.skyLoss_eq_scalarLoss (b.withParam c₀ i₀ j₀ t) hE
    rw [hfun]
    exact hmain
  · exact div_pos (Real.exp_pos _) (by positivity)

/-- Witness for claim C8 on the concrete zero-initialized BaseCube. -/
theorem basecube_gradient_flow_witness :
    Even (2 : ℕ) ∧
      (HasDerivAt
          (fun t => (wbase.withParam ⟨0, by decide⟩ ⟨0, by decide⟩ ⟨0, by decide⟩ t).scalarLoss)
          (Real.exp (wbase.base_cube ⟨0, by decide⟩ ⟨0, by decide⟩ ⟨0, by decide⟩) /
            (1 + Real.exp (wbase.base_cube ⟨0, by decide⟩ ⟨0, by decide⟩ ⟨0, by decide⟩)))
          (wbase.base_cube ⟨0, by decide⟩ ⟨0, by decide⟩ ⟨0, by decide⟩) ∧
        HasDerivAt
          (fun t => (wbase.withParam ⟨0, by decide⟩ ⟨0, by decide⟩ ⟨0, by decide⟩ t).skyLoss)
          (Real.exp (wbase.base_cube ⟨0, by decide⟩ ⟨0, by decide⟩ ⟨0, by decide⟩) /
            (1 + Real.exp (wbase.base_cube ⟨0, by decide⟩ ⟨0, by decide⟩ ⟨0, by decide⟩)))
          (wbase.base_cube ⟨0, by decide⟩ ⟨0, by decide⟩ ⟨0, by decide⟩) ∧
        0 < Real.exp (wbase.base_cube ⟨0, by decide⟩ ⟨0, by decide⟩ ⟨0, by decide⟩) /
            (1 + Real.exp (wbase.base_cube ⟨0, by decide⟩ ⟨0, by decide⟩ ⟨0, by decide⟩))) :=
  ⟨by decide, basecube_gradient_flow wbase (by decide) ⟨0, by decide⟩ ⟨0, by decide⟩ ⟨0, by decide⟩⟩
